import Mathlib

/-!
Shallow embedding of the JWT authentication core of
better-ADMIN-backend-service: the claim codec and token
issuing/validation code of src/security/jwt.go, the claim-validation and
signature semantics of the golang-jwt v3 library it calls, and the
authentication middlewares (JwtToken and CheckAuth).

Modelling conventions, kept throughout:

* Machine integers are Nat/Int.  The Go field UserClaim.Id has type uint
  (64-bit); it is modelled as Nat, and theorems restrict the range exactly
  where the claims under scrutiny do.
* Unix times are Int (seconds), matching the int64 values produced by
  time.Time.Unix() that the code actually compares.
* Go encoding/json decodes every JSON number into a float64 when the
  target is interface\x7b\x7d (as in UserClaim.ConvertMap and in the jwt
  library's MapClaims decoding).  An integer that passes through this
  float64 intermediate is rounded to 53 significant bits
  (round-to-nearest, ties-to-even); floatRound below models that rounding
  for the integral values this program traffics in.  JSON numbers are
  therefore modelled as Int with floatRound applied at each point where
  the source decodes into a generic map.  Non-integral numbers and nested
  arrays/objects never occur in payloads this program builds and are
  outside the modelled domain.
* Fallible operations return Except.  json.Marshal of a UserClaim and of
  the maps built here can never fail, so ConvertMap is total (its Go
  error result is provably nil on this input type).
-/

namespace BetterAdmin

/-- An element of a (non-nested) JSON array, as decoded by Go
encoding/json: a number (integral float64, see floatRound), a string, a
boolean, or null. -/
inductive JsonAtom where
  | num (x : Int)
  | str (s : String)
  | boolean (b : Bool)
  | null
deriving DecidableEq, Repr

/-- A JSON value as stored in a Go map of string to interface values
after json.Unmarshal: a number, a string, a boolean, null, or an array of
atoms. -/
inductive JsonValue where
  | num (x : Int)
  | str (s : String)
  | boolean (b : Bool)
  | null
  | arr (xs : List JsonAtom)
deriving DecidableEq, Repr

/-- A decoded JSON object (Go map of string to interface values).  Keys
are unique in every payload the program builds; lookup takes the first
binding, matching Go map semantics on such lists. -/
abbrev Payload := List (String × JsonValue)

/-- Base-2 logarithm by structural recursion on a fuel argument, so that
the kernel can evaluate it; with fuel f it is exact for every n below
2 to the f. -/
def log2Fuel : Nat → Nat → Nat
  | 0, _ => 0
  | fuel + 1, n => if 2 ≤ n then log2Fuel fuel (n / 2) + 1 else 0

/-- Floor of the base-2 logarithm, exact for every value below 2 to the
256 (far beyond the uint64 range this program traffics in). -/
def natLog2 (n : Nat) : Nat := log2Fuel 256 n

/-- Rounding of a nonnegative integer to the nearest float64
(round-to-nearest, ties-to-even), for integers; values up to 2 to the 53
are exact.  This models what happens when Go encoding/json decodes an
integer JSON number into interface\x7b\x7d: the number becomes a float64.
Integral float64 values below 1e21 re-marshal in plain decimal notation,
so marshalling the rounded value back reproduces its exact decimal
digits. -/
def floatRound (n : Nat) : Nat :=
  if n ≤ 2 ^ 53 then n
  else
    let s := natLog2 n - 52
    let q := n / 2 ^ s
    let r := n % 2 ^ s
    if 2 ^ (s - 1) < r ∨ (r = 2 ^ (s - 1) ∧ q % 2 = 1) then (q + 1) * 2 ^ s
    else q * 2 ^ s

/-- floatRound on a signed integer (float64 rounding is symmetric). -/
def intFloatRound (i : Int) : Int :=
  if 0 ≤ i then ((floatRound i.toNat : Nat) : Int)
  else -((floatRound (-i).toNat : Nat) : Int)

theorem floatRound_of_le (n : Nat) (h : n ≤ 2 ^ 53) : floatRound n = n := by
  unfold floatRound
  exact if_pos h

theorem intFloatRound_of_nonneg_le (i : Int) (h0 : 0 ≤ i) (h1 : i ≤ 2 ^ 53) :
    intFloatRound i = i := by
  unfold intFloatRound
  rw [if_pos h0, floatRound_of_le]
  · exact Int.toNat_of_nonneg h0
  · omega

namespace security

/-- The identity claim embedded in every token
(src/security/jwt.go, type UserClaim).  Id is a Go uint. -/
structure UserClaim where
  id : Nat
  roles : List String
  permissions : List String
deriving DecidableEq, Repr

/-- ASCII lowering of a key, modelling the case-insensitive field match
Go encoding/json applies when decoding an object key into a struct
field. -/
def lowerKey (s : String) : String := String.mk (s.data.map Char.toLower)

/-- UserClaim.ConvertMap (src/security/jwt.go): json.Marshal the claim,
then json.Unmarshal the bytes into a generic map.  The marshal step
prints the exact decimal of Id; the unmarshal step turns it into a
float64, hence floatRound.  Role and permission lists become JSON arrays
of strings.  Neither step can fail on this input type, so the Go error
result is always nil and the function is modelled total. -/
def UserClaim.ConvertMap (c : UserClaim) : Payload :=
  [("id", JsonValue.num ((floatRound c.id : Nat) : Int)),
   ("roles", JsonValue.arr (c.roles.map JsonAtom.str)),
   ("permissions", JsonValue.arr (c.permissions.map JsonAtom.str))]

/-- Whether a JSON atom is a string. -/
def isStrAtom : JsonAtom → Bool
  | JsonAtom.str _ => true
  | _ => false

/-- The string carried by a string atom. -/
def getStrAtom : JsonAtom → Option String
  | JsonAtom.str s => some s
  | _ => none

/-- State of the streaming struct decode inside json.Unmarshal: the
partially filled claim and whether an error has been recorded (Go keeps
the first error, keeps decoding, and returns the error at the end; only
its presence is observable through NewUserClaim). -/
structure DecState where
  claim : UserClaim
  err : Bool
deriving DecidableEq, Repr

/-- Decoding of one JSON object entry into the UserClaim struct,
following Go encoding/json: the key is matched case-insensitively
against the field tags id, roles and permissions; an unmatched entry is
ignored; null leaves a field untouched; a number stored into the uint
field must be a nonnegative integer below 2 to the 64 (otherwise
strconv.ParseUint fails and an unmarshal error is recorded); an array
stored into a string slice must contain only strings. -/
def applyEntry (st : DecState) (kv : String × JsonValue) : DecState :=
  let k := lowerKey kv.1
  if k = "id" then
    match kv.2 with
    | JsonValue.null => st
    | JsonValue.num x =>
        if 0 ≤ x ∧ x < 2 ^ 64 then
          { st with claim := { st.claim with id := x.toNat } }
        else { st with err := true }
    | _ => { st with err := true }
  else if k = "roles" then
    match kv.2 with
    | JsonValue.null => st
    | JsonValue.arr xs =>
        if xs.all isStrAtom then
          { st with claim := { st.claim with roles := xs.filterMap getStrAtom } }
        else { st with err := true }
    | _ => { st with err := true }
  else if k = "permissions" then
    match kv.2 with
    | JsonValue.null => st
    | JsonValue.arr xs =>
        if xs.all isStrAtom then
          { st with claim := { st.claim with permissions := xs.filterMap getStrAtom } }
        else { st with err := true }
    | _ => { st with err := true }
  else st

/-- NewUserClaim (src/security/jwt.go): json.Marshal the generic map,
json.Unmarshal the bytes into a UserClaim.  The struct starts from its
zero value; entries are decoded in sequence; a recorded unmarshal error
is returned wrapped, otherwise the filled struct.  A missing field
simply leaves its zero value: Go json.Unmarshal does not require any
field to be present. -/
def NewUserClaim (m : Payload) : Except String UserClaim :=
  let st := m.foldl applyEntry ⟨⟨0, [], []⟩, false⟩
  if st.err then Except.error "JSON Unmarshal error" else Except.ok st.claim

end security

end BetterAdmin

deriving instance DecidableEq for Except

namespace BetterAdmin

namespace security

theorem lowerKey_id : lowerKey "id" = "id" := by decide

theorem lowerKey_roles : lowerKey "roles" = "roles" := by decide

theorem lowerKey_permissions : lowerKey "permissions" = "permissions" := by decide

theorem all_isStrAtom_map (l : List String) :
    (l.map JsonAtom.str).all isStrAtom = true := by
  induction l with
  | nil => rfl
  | cons a t ih => simp [isStrAtom, ih]

theorem filterMap_getStrAtom_map (l : List String) :
    (l.map JsonAtom.str).filterMap getStrAtom = l := by
  induction l with
  | nil => rfl
  | cons a t ih => simp [getStrAtom, ih]

theorem filterMap_getStrAtom_comp (l : List String) :
    List.filterMap (getStrAtom ∘ JsonAtom.str) l = l := by
  induction l with
  | nil => rfl
  | cons a t ih => simp [getStrAtom, ih]

theorem applyEntry_id (st : DecState) (x : Int) (h : 0 ≤ x ∧ x < 2 ^ 64) :
    applyEntry st ("id", JsonValue.num x) =
      { st with claim := { st.claim with id := x.toNat } } := by
  unfold applyEntry
  simp only [lowerKey_id, if_true]
  exact if_pos h

theorem applyEntry_roles (st : DecState) (l : List String) :
    applyEntry st ("roles", JsonValue.arr (l.map JsonAtom.str)) =
      { st with claim := { st.claim with roles := l } } := by
  simp [applyEntry, lowerKey_roles, all_isStrAtom_map, filterMap_getStrAtom_map,
    filterMap_getStrAtom_comp]

theorem applyEntry_permissions (st : DecState) (l : List String) :
    applyEntry st ("permissions", JsonValue.arr (l.map JsonAtom.str)) =
      { st with claim := { st.claim with permissions := l } } := by
  simp [applyEntry, lowerKey_permissions, all_isStrAtom_map, filterMap_getStrAtom_map,
    filterMap_getStrAtom_comp]

theorem applyEntry_skip (st : DecState) (k : String) (v : JsonValue)
    (h1 : lowerKey k ≠ "id") (h2 : lowerKey k ≠ "roles")
    (h3 : lowerKey k ≠ "permissions") : applyEntry st (k, v) = st := by
  unfold applyEntry
  rw [if_neg h1, if_neg h2, if_neg h3]

/-- Core round-trip fact: the generic-map encode/decode pair reproduces
any claim whose id survives the float64 intermediate. -/
theorem decode_roundtrip (c : UserClaim) (hid : c.id < 2 ^ 64)
    (hfr : floatRound c.id = c.id) :
    NewUserClaim c.ConvertMap = Except.ok c := by
  obtain ⟨i, rs, ps⟩ := c
  simp only at hid hfr
  unfold NewUserClaim UserClaim.ConvertMap
  simp only [List.foldl_cons, List.foldl_nil, hfr]
  rw [applyEntry_id _ _ ⟨by positivity, by exact_mod_cast hid⟩,
    applyEntry_roles, applyEntry_permissions]
  simp

/-- Decoding ignores an appended entry whose key matches no claim field
(case-insensitively), wherever it sits in the map. -/
theorem newUserClaim_append_skip (m : Payload) (k : String) (v : JsonValue)
    (h1 : lowerKey k ≠ "id") (h2 : lowerKey k ≠ "roles")
    (h3 : lowerKey k ≠ "permissions") :
    NewUserClaim (m ++ [(k, v)]) = NewUserClaim m := by
  unfold NewUserClaim
  rw [List.foldl_append]
  simp only [List.foldl_cons, List.foldl_nil]
  rw [applyEntry_skip _ _ _ h1 h2 h3]

end security

end BetterAdmin

namespace BetterAdmin

namespace security

/-- The error values of src/security/jwt.go: the two package-level
sentinel errors, plus the wrapped codec error that NewUserClaim can
return through ConvertTokenUserClaim (the source returns that error
as-is, without mapping it to either sentinel). -/
inductive AuthError where
  | invalidAccessToken
  | accessTokenExpired
  | codec (msg : String)
deriving DecidableEq, Repr

/-- The string of err.Error(), used by the middleware as the 401 body. -/
def AuthError.message : AuthError → String
  | AuthError.invalidAccessToken => "invalid access token"
  | AuthError.accessTokenExpired => "access token expired"
  | AuthError.codec msg => msg

/-- A token signature segment.  HMAC is modelled as an ideal MAC: a
signature produced by signing a payload with a given HMAC algorithm and
key verifies exactly against that algorithm, payload and key; any other
byte string is some forged value that verifies against nothing. -/
inductive Sig where
  | hmac (alg : String) (claims : Payload) (key : String)
  | forged (tag : Nat)
deriving DecidableEq, Repr

/-- A compact-serialized JWT as seen by jwt.Parse: either a string that
fails structural parsing (wrong number of segments, bad base64, bad JSON,
or a missing/non-string/unregistered alg header collapse to the same
observable behaviour, an error without expiry bits), or a structurally
valid token with its declared alg header, its decoded claims map, and its
signature segment. -/
inductive Jwt where
  | malformed (tag : Nat)
  | token (alg : String) (claims : Payload) (sig : Sig)
deriving DecidableEq, Repr

/-- Validation error bitmask constants of the golang-jwt v3 library
(ValidationError.Errors). -/
def ValidationErrorMalformed : Nat := 1

def ValidationErrorUnverifiable : Nat := 2

def ValidationErrorSignatureInvalid : Nat := 4

def ValidationErrorExpired : Nat := 16

def ValidationErrorIssuedAt : Nat := 32

def ValidationErrorNotValidYet : Nat := 128

/-- MapClaims.VerifyExpiresAt(now, false) of golang-jwt v3: true when the
exp entry is absent or numerically zero, or when now is at or before exp
(strictly after exp means expired); a non-numeric exp fails the check. -/
def VerifyExpiresAt (m : Payload) (now : Int) : Bool :=
  match List.lookup "exp" m with
  | none => true
  | some (JsonValue.num x) => if x = 0 then true else decide (now ≤ x)
  | some _ => false

/-- MapClaims.VerifyIssuedAt(now, false): true when iat is absent or
zero, or when now is at or after iat. -/
def VerifyIssuedAt (m : Payload) (now : Int) : Bool :=
  match List.lookup "iat" m with
  | none => true
  | some (JsonValue.num x) => if x = 0 then true else decide (x ≤ now)
  | some _ => false

/-- MapClaims.VerifyNotBefore(now, false): true when nbf is absent or
zero, or when now is at or after nbf. -/
def VerifyNotBefore (m : Payload) (now : Int) : Bool :=
  match List.lookup "nbf" m with
  | none => true
  | some (JsonValue.num x) => if x = 0 then true else decide (x ≤ now)
  | some _ => false

/-- MapClaims.Valid() of golang-jwt v3: runs the exp, iat and nbf checks
and accumulates a bit for each failure; zero means the claims are
valid. -/
def claimsValidBits (m : Payload) (now : Int) : Nat :=
  (if VerifyExpiresAt m now then 0 else ValidationErrorExpired) |||
  (if VerifyIssuedAt m now then 0 else ValidationErrorIssuedAt) |||
  (if VerifyNotBefore m now then 0 else ValidationErrorNotValidYet)

/-- The alg header values registered with the golang-jwt v3 library; any
other string makes GetSigningMethod return nil and parsing stop with an
unverifiable error. -/
def registeredAlgs : List String :=
  ["none", "ES256", "ES384", "ES512", "HS256", "HS384", "HS512",
   "PS256", "PS384", "PS512", "RS256", "RS384", "RS512"]

/-- Signature verification with the byte-slice secret the keyfunc in
ConvertTokenUserClaim always returns: the three HMAC methods verify an
ideal MAC over the signing content; every other registered method
(including none, which requires its magic constant key, and the RSA and
ECDSA families, which reject a byte-slice key) always fails. -/
def sigVerify (alg : String) (claims : Payload) (secret : String) (sig : Sig) : Bool :=
  if alg = "HS256" ∨ alg = "HS384" ∨ alg = "HS512" then
    decide (sig = Sig.hmac alg claims secret)
  else false

/-- The successfully parsed token: the fields of jwt.Token that
ConvertTokenUserClaim reads after a nil-error Parse (header alg and the
MapClaims). -/
structure ParsedToken where
  alg : String
  claims : Payload
deriving DecidableEq, Repr

/-- jwt.Parse with the constant keyfunc of ConvertTokenUserClaim,
following parser.ParseWithClaims of golang-jwt v3: structural parsing
and signing-method lookup first (failures stop with malformed or
unverifiable bits, before any claims validation); then claims validation
and signature verification both run, accumulating bits in one
ValidationError; a zero accumulator yields a valid token. -/
def jwtParse (secret : String) (now : Int) : Jwt → Except Nat ParsedToken
  | Jwt.malformed _ => Except.error ValidationErrorMalformed
  | Jwt.token alg claims sig =>
      if registeredAlgs.contains alg then
        let bits := claimsValidBits claims now |||
          (if sigVerify alg claims secret sig then 0 else ValidationErrorSignatureInvalid)
        if bits = 0 then Except.ok ⟨alg, claims⟩ else Except.error bits
      else Except.error ValidationErrorUnverifiable

/-- The final claim-decoding step of ConvertTokenUserClaim: a
NewUserClaim failure is returned as-is (a codec error, not either
sentinel). -/
def wrapNew : Except String UserClaim → Except AuthError UserClaim
  | Except.ok c => Except.ok c
  | Except.error e => Except.error (AuthError.codec e)

/-- JwtAuthentication.ConvertTokenUserClaim (src/security/jwt.go): parse
with the process secret; on a parse error return AccessTokenExpired when
the expired or not-valid-yet bit is set and InvalidAccessToken otherwise;
on success reject a header alg other than HS256, then decode the claims
map via NewUserClaim.  The source's parsedToken.Valid and MapClaims
type-assertion checks are vacuous on this path (a nil-error Parse always
yields a valid token with MapClaims) and are not separately modelled. -/
def ConvertTokenUserClaim (secret : String) (now : Int) (tok : Jwt) :
    Except AuthError UserClaim :=
  match jwtParse secret now tok with
  | Except.error bits =>
      if bits &&& (ValidationErrorExpired ||| ValidationErrorNotValidYet) ≠ 0 then
        Except.error AuthError.accessTokenExpired
      else
        Except.error AuthError.invalidAccessToken
  | Except.ok pt =>
      if pt.alg ≠ "HS256" then Except.error AuthError.invalidAccessToken
      else wrapNew (NewUserClaim pt.claims)

/-- The token pair returned by GenerateJwtToken (type JwtToken in
src/security/jwt.go). -/
structure JwtToken where
  accessToken : Jwt
  refreshToken : Jwt
  refreshTokenExpires : Int
deriving DecidableEq, Repr

/-- JwtAuthentication.GenerateJwtToken: encode the claim, copy the map
into access and refresh claim maps, set exp to now plus 15 minutes
(access) and now plus 7 days (refresh), sign each with HMAC-SHA256 under
the process secret.  The exp values are written as exact int64 Unix
seconds; the claims maps carried by the model represent the maps as
later decoded by the validator, whose JSON decoding passes the numbers
through float64, hence intFloatRound.  The two time.Now() calls of the
source are modelled by one now parameter. -/
def GenerateJwtToken (secret : String) (now : Int) (claim : UserClaim) : JwtToken :=
  let m := claim.ConvertMap
  let accessClaims := m ++ [("exp", JsonValue.num (intFloatRound (now + 900)))]
  let refreshClaims := m ++ [("exp", JsonValue.num (intFloatRound (now + 604800)))]
  { accessToken := Jwt.token "HS256" accessClaims (Sig.hmac "HS256" accessClaims secret)
    refreshToken := Jwt.token "HS256" refreshClaims (Sig.hmac "HS256" refreshClaims secret)
    refreshTokenExpires := now + 604800 }

/-- JwtAuthentication.GenerateJwtAccessTokenNeverExpired: encode the
claim and sign it with HMAC-SHA256; no exp entry is ever added. -/
def GenerateJwtAccessTokenNeverExpired (secret : String) (claim : UserClaim) : Jwt :=
  Jwt.token "HS256" claim.ConvertMap (Sig.hmac "HS256" claim.ConvertMap secret)

/-- JwtAuthentication.RefreshAccessToken: validate the refresh token; on
success generate a whole new pair for the recovered claim and return only
its access token. -/
def RefreshAccessToken (secret : String) (now : Int) (refreshToken : Jwt) :
    Except AuthError Jwt :=
  match ConvertTokenUserClaim secret now refreshToken with
  | Except.error e => Except.error e
  | Except.ok userClaim => Except.ok (GenerateJwtToken secret now userClaim).accessToken

/-- JwtAuthentication.ValidateToken: validation result with the claim
discarded. -/
def ValidateToken (secret : String) (now : Int) (tok : Jwt) : Except AuthError Unit :=
  match ConvertTokenUserClaim secret now tok with
  | Except.error e => Except.error e
  | Except.ok _ => Except.ok ()

end security

end BetterAdmin
namespace BetterAdmin

namespace security

/-- Exhaustive behaviour of ConvertTokenUserClaim on a structurally valid
token with a registered alg: claims validity and signature verification
accumulate; an expiry or not-before failure yields AccessTokenExpired no
matter what else failed; any other failure (bad signature, premature
issued-at) yields InvalidAccessToken; full success still requires the
header alg to be exactly HS256 before the claims are decoded. -/
theorem convertToken_cases (secret : String) (now : Int) (alg : String)
    (m : Payload) (sig : Sig) (hreg : registeredAlgs.contains alg = true) :
    ConvertTokenUserClaim secret now (Jwt.token alg m sig) =
      if sigVerify alg m secret sig && VerifyExpiresAt m now &&
          VerifyIssuedAt m now && VerifyNotBefore m now then
        (if alg = "HS256" then wrapNew (NewUserClaim m)
         else Except.error AuthError.invalidAccessToken)
      else if !(VerifyExpiresAt m now) || !(VerifyNotBefore m now) then
        Except.error AuthError.accessTokenExpired
      else Except.error AuthError.invalidAccessToken := by
  simp only [ConvertTokenUserClaim, jwtParse, claimsValidBits, hreg, if_true]
  cases hS : sigVerify alg m secret sig <;>
    cases hE : VerifyExpiresAt m now <;>
      cases hI : VerifyIssuedAt m now <;>
        cases hN : VerifyNotBefore m now <;>
          first
          | rfl
          | (by_cases halg : alg = "HS256" <;> simp [halg, wrapNew])

end security

end BetterAdmin
namespace BetterAdmin

namespace security

theorem contains_hs256 : registeredAlgs.contains "HS256" = true := by decide

theorem sigVerify_self (m : Payload) (secret : String) :
    sigVerify "HS256" m secret (Sig.hmac "HS256" m secret) = true := by
  simp [sigVerify]

theorem lookup_exp_convertMap (c : UserClaim) :
    List.lookup "exp" c.ConvertMap = none := rfl

theorem lookup_iat_convertMap (c : UserClaim) :
    List.lookup "iat" c.ConvertMap = none := rfl

theorem lookup_nbf_convertMap (c : UserClaim) :
    List.lookup "nbf" c.ConvertMap = none := rfl

theorem lookup_exp_convertMap_exp (c : UserClaim) (v : JsonValue) :
    List.lookup "exp" (c.ConvertMap ++ [("exp", v)]) = some v := rfl

theorem lookup_iat_convertMap_exp (c : UserClaim) (v : JsonValue) :
    List.lookup "iat" (c.ConvertMap ++ [("exp", v)]) = none := rfl

theorem lookup_nbf_convertMap_exp (c : UserClaim) (v : JsonValue) :
    List.lookup "nbf" (c.ConvertMap ++ [("exp", v)]) = none := rfl

theorem newUserClaim_convertMap_exp (c : UserClaim) (v : JsonValue) :
    NewUserClaim (c.ConvertMap ++ [("exp", v)]) = NewUserClaim c.ConvertMap :=
  newUserClaim_append_skip _ _ _ (by decide) (by decide) (by decide)

/-- Behaviour of validation on an HS256 token correctly signed with the
process secret whose claims map is an encoded claim plus a nonzero exp:
success exactly while now is at or before exp, AccessTokenExpired
strictly after. -/
theorem convert_signed_exp (secret : String) (now : Int) (c : UserClaim) (e : Int)
    (he0 : e ≠ 0) (hrt : NewUserClaim c.ConvertMap = Except.ok c) :
    ConvertTokenUserClaim secret now
      (Jwt.token "HS256" (c.ConvertMap ++ [("exp", JsonValue.num e)])
        (Sig.hmac "HS256" (c.ConvertMap ++ [("exp", JsonValue.num e)]) secret)) =
      if now ≤ e then Except.ok c else Except.error AuthError.accessTokenExpired := by
  rw [convertToken_cases _ _ _ _ _ contains_hs256]
  have hE : VerifyExpiresAt (c.ConvertMap ++ [("exp", JsonValue.num e)]) now =
      decide (now ≤ e) := by
    simp [VerifyExpiresAt, lookup_exp_convertMap_exp, he0]
  have hI : VerifyIssuedAt (c.ConvertMap ++ [("exp", JsonValue.num e)]) now = true := by
    simp [VerifyIssuedAt, lookup_iat_convertMap_exp]
  have hN : VerifyNotBefore (c.ConvertMap ++ [("exp", JsonValue.num e)]) now = true := by
    simp [VerifyNotBefore, lookup_nbf_convertMap_exp]
  rw [hE, hI, hN, sigVerify_self, newUserClaim_convertMap_exp, hrt]
  by_cases hle : now ≤ e
  · simp [hle, wrapNew]
  · simp [hle]

/-- Behaviour of validation on a never-expiring token: at every
verification time it reaches the claim decode, whose result it
returns. -/
theorem convert_never_expired (secret : String) (now : Int) (c : UserClaim) :
    ConvertTokenUserClaim secret now (GenerateJwtAccessTokenNeverExpired secret c) =
      wrapNew (NewUserClaim c.ConvertMap) := by
  unfold GenerateJwtAccessTokenNeverExpired
  rw [convertToken_cases _ _ _ _ _ contains_hs256]
  have hE : VerifyExpiresAt c.ConvertMap now = true := by
    simp [VerifyExpiresAt, lookup_exp_convertMap]
  have hI : VerifyIssuedAt c.ConvertMap now = true := by
    simp [VerifyIssuedAt, lookup_iat_convertMap]
  have hN : VerifyNotBefore c.ConvertMap now = true := by
    simp [VerifyNotBefore, lookup_nbf_convertMap]
  rw [hE, hI, hN, sigVerify_self]
  simp

/-- The access token produced by GenerateJwtToken, as validated at an
arbitrary later clock: success with the round-tripped claim through
t0 + 900 seconds inclusive, AccessTokenExpired strictly afterwards.  The
time bounds keep the written exp value exactly representable as a
float64 (true of every realistic clock). -/
theorem generated_access_behavior (secret : String) (c : UserClaim) (t0 now : Int)
    (hrt : NewUserClaim c.ConvertMap = Except.ok c)
    (h0 : 0 ≤ t0) (h1 : t0 + 900 ≤ 2 ^ 53) :
    ConvertTokenUserClaim secret now (GenerateJwtToken secret t0 c).accessToken =
      if now ≤ t0 + 900 then Except.ok c
      else Except.error AuthError.accessTokenExpired := by
  have he : intFloatRound (t0 + 900) = t0 + 900 :=
    intFloatRound_of_nonneg_le _ (by omega) h1
  show ConvertTokenUserClaim secret now
      (Jwt.token "HS256" (c.ConvertMap ++ [("exp", JsonValue.num (intFloatRound (t0 + 900)))])
        (Sig.hmac "HS256" (c.ConvertMap ++ [("exp", JsonValue.num (intFloatRound (t0 + 900)))]) secret)) = _
  rw [he]
  exact convert_signed_exp secret now c (t0 + 900) (by omega) hrt

/-- The refresh token produced by GenerateJwtToken, as validated at an
arbitrary later clock: success with the round-tripped claim through
t0 + 604800 seconds inclusive, AccessTokenExpired strictly afterwards. -/
theorem generated_refresh_behavior (secret : String) (c : UserClaim) (t0 now : Int)
    (hrt : NewUserClaim c.ConvertMap = Except.ok c)
    (h0 : 0 ≤ t0) (h1 : t0 + 604800 ≤ 2 ^ 53) :
    ConvertTokenUserClaim secret now (GenerateJwtToken secret t0 c).refreshToken =
      if now ≤ t0 + 604800 then Except.ok c
      else Except.error AuthError.accessTokenExpired := by
  have he : intFloatRound (t0 + 604800) = t0 + 604800 :=
    intFloatRound_of_nonneg_le _ (by omega) h1
  show ConvertTokenUserClaim secret now
      (Jwt.token "HS256" (c.ConvertMap ++ [("exp", JsonValue.num (intFloatRound (t0 + 604800)))])
        (Sig.hmac "HS256"
          (c.ConvertMap ++ [("exp", JsonValue.num (intFloatRound (t0 + 604800)))]) secret)) = _
  rw [he]
  exact convert_signed_exp secret now c (t0 + 604800) (by omega) hrt

end security

end BetterAdmin
namespace BetterAdmin

/-- Whether a JSON value could actually result from Go's JSON decoding:
every number in a decoded map is a float64, so an integral number must be
exactly representable (a fixpoint of the float64 rounding). -/
def JsonValue.floaty : JsonValue → Bool
  | JsonValue.num x => decide (intFloatRound x = x)
  | _ => true

/-- Whether every value of a payload is float64-representable; true of
every claims map a real parsed token can carry, since the jwt library
decodes claims JSON through float64 numbers. -/
def payloadFloaty (m : Payload) : Bool := m.all fun kv => kv.2.floaty

namespace security

/-- Whether a token's claims map could result from real JSON decoding. -/
def Jwt.floaty : Jwt → Bool
  | Jwt.malformed _ => true
  | Jwt.token _ m _ => payloadFloaty m

theorem floatRound_toNat_of_nonneg (x : Int) (h0 : 0 ≤ x)
    (hf : intFloatRound x = x) : floatRound x.toNat = x.toNat := by
  unfold intFloatRound at hf
  rw [if_pos h0] at hf
  exact_mod_cast congrArg Int.toNat hf

/-- One decode step either leaves the id field alone or stores the
toNat of an in-range number from the entry value. -/
theorem applyEntry_claim_id (st : DecState) (kv : String × JsonValue) :
    (applyEntry st kv).claim.id = st.claim.id ∨
    ∃ x : Int, kv.2 = JsonValue.num x ∧ 0 ≤ x ∧ x < 2 ^ 64 ∧
      (applyEntry st kv).claim.id = x.toNat := by
  obtain ⟨k, v⟩ := kv
  by_cases h1 : lowerKey k = "id"
  · cases v with
    | num x =>
        by_cases hr : 0 ≤ x ∧ x < 2 ^ 64
        · refine Or.inr ⟨x, rfl, hr.1, hr.2, ?_⟩
          simp [applyEntry, h1]
          rw [if_pos (by omega)]
        · refine Or.inl ?_
          simp [applyEntry, h1]
          rw [if_neg (by omega)]
    | null => exact Or.inl (by simp [applyEntry, h1])
    | str s => exact Or.inl (by simp [applyEntry, h1])
    | boolean b => exact Or.inl (by simp [applyEntry, h1])
    | arr xs => exact Or.inl (by simp [applyEntry, h1])
  · left
    cases v <;> by_cases h2 : lowerKey k = "roles" <;>
      by_cases h3 : lowerKey k = "permissions" <;>
        simp [applyEntry, h1, h2, h3] <;>
          first
          | rfl
          | (split <;> rfl)

theorem foldl_id_invariant (m : Payload) (st : DecState)
    (hst : floatRound st.claim.id = st.claim.id ∧ st.claim.id < 2 ^ 64)
    (hm : payloadFloaty m = true) :
    floatRound (m.foldl applyEntry st).claim.id = (m.foldl applyEntry st).claim.id ∧
      (m.foldl applyEntry st).claim.id < 2 ^ 64 := by
  induction m generalizing st with
  | nil => exact hst
  | cons kv t ih =>
      simp only [payloadFloaty, List.all_cons, Bool.and_eq_true] at hm
      have hmt : payloadFloaty t = true := hm.2
      have hv : kv.2.floaty = true := hm.1
      refine ih (applyEntry st kv) ?_ hmt
      rcases applyEntry_claim_id st kv with h | ⟨x, hx, hx0, hx64, hid⟩
      · rw [h]
        exact hst
      · rw [hid]
        have hfx : intFloatRound x = x := by
          rw [hx] at hv
          simpa [JsonValue.floaty] using hv
        exact ⟨floatRound_toNat_of_nonneg x hx0 hfx, by omega⟩

/-- Any claim recovered by decoding a float64-representable payload
round-trips through the codec: its id is already a float64 value below
2 to the 64, so re-encoding reproduces it exactly. -/
theorem decoded_roundtrips (m : Payload) (c : UserClaim)
    (hm : payloadFloaty m = true) (h : NewUserClaim m = Except.ok c) :
    NewUserClaim c.ConvertMap = Except.ok c := by
  have h0 : floatRound (0 : Nat) = 0 := floatRound_of_le 0 (by norm_num)
  have hprop := foldl_id_invariant m ⟨⟨0, [], []⟩, false⟩ ⟨h0, by norm_num⟩ hm
  unfold NewUserClaim at h
  by_cases herr : (m.foldl applyEntry ⟨⟨0, [], []⟩, false⟩).err = true
  · rw [if_pos herr] at h
    exact absurd h (by simp)
  · rw [if_neg herr] at h
    have hc : (m.foldl applyEntry ⟨⟨0, [], []⟩, false⟩).claim = c :=
      Except.ok.inj h
    rw [hc] at hprop
    exact decode_roundtrip c hprop.2 hprop.1

theorem convert_malformed (secret : String) (now : Int) (tag : Nat) :
    ConvertTokenUserClaim secret now (Jwt.malformed tag) =
      Except.error AuthError.invalidAccessToken := rfl

theorem convert_unregistered (secret : String) (now : Int) (alg : String)
    (m : Payload) (sig : Sig) (hr : registeredAlgs.contains alg = false) :
    ConvertTokenUserClaim secret now (Jwt.token alg m sig) =
      Except.error AuthError.invalidAccessToken := by
  simp only [ConvertTokenUserClaim, jwtParse, hr]
  rfl

/-- Any claim recovered by validating a real (float64-representable)
token round-trips through the codec. -/
theorem validated_roundtrips (secret : String) (now : Int) (tok : Jwt)
    (c : UserClaim) (hfl : tok.floaty = true)
    (h : ConvertTokenUserClaim secret now tok = Except.ok c) :
    NewUserClaim c.ConvertMap = Except.ok c := by
  cases tok with
  | malformed tag =>
      rw [convert_malformed] at h
      exact absurd h (by simp)
  | token alg m sig =>
      have hm : payloadFloaty m = true := hfl
      by_cases hr : registeredAlgs.contains alg = true
      · rw [convertToken_cases secret now alg m sig hr] at h
        by_cases hc : (sigVerify alg m secret sig && VerifyExpiresAt m now &&
            VerifyIssuedAt m now && VerifyNotBefore m now) = true
        · rw [if_pos hc] at h
          by_cases ha : alg = "HS256"
          · rw [if_pos ha] at h
            cases hn : NewUserClaim m with
            | error e =>
                rw [hn] at h
                exact absurd h (by simp [wrapNew])
            | ok c2 =>
                rw [hn] at h
                have hcc : c2 = c := by simpa [wrapNew] using h
                rw [hcc] at hn
                exact decoded_roundtrips m c hm hn
          · rw [if_neg ha] at h
            exact absurd h (by simp)
        · rw [if_neg hc] at h
          by_cases hb : (!VerifyExpiresAt m now || !VerifyNotBefore m now) = true
          · rw [if_pos hb] at h
            exact absurd h (by simp)
          · rw [if_neg hb] at h
            exact absurd h (by simp)
      · have hr2 : registeredAlgs.contains alg = false := by simpa using hr
        rw [convert_unregistered secret now alg m sig hr2] at h
        exact absurd h (by simp)

end security

end BetterAdmin
namespace BetterAdmin

namespace middlewares

/-- Modelled from the spec: the helpers package (ContextHelper) is not
part of the sources provided; section 3 of the specification describes
the verified context as a per-request slot holding at most one identity
claim, absent until set.  SetUserClaim stores a claim in the slot. -/
def SetUserClaim (ctx : Option security.UserClaim) (c : security.UserClaim) :
    Option security.UserClaim :=
  some c

/-- Modelled from the spec: ContextHelper().GetUserClaim returns the
claim from the request context slot, or an error when the slot is
absent. -/
def GetUserClaim : Option security.UserClaim → Except String security.UserClaim
  | none => Except.error "user claim not found in context"
  | some c => Except.ok c

/-- Result of one echo middleware: either a 401 short-circuit carrying
the response status and message, or a pass to the next handler with the
request context (the claim slot) it forwards. -/
inductive MwStep where
  | reject (status : Nat) (msg : String)
  | pass (ctx : Option security.UserClaim)
deriving DecidableEq, Repr

/-- The characters of the literal Bearer searched for by the middleware
(its Go length is 6). -/
def bearerChars : List Char := ['B', 'e', 'a', 'r', 'e', 'r']

/-- Whether sub is a prefix of s (byte-wise, as Go strings.Index does at
offset zero). -/
def listStartsWith : List Char → List Char → Bool
  | _, [] => true
  | [], _ :: _ => false
  | a :: as, b :: bs => a = b && listStartsWith as bs

/-- First index of sub inside s, none when absent: Go
strings.Index(s, sub) with its minus-one result mapped to none. -/
def goIndex (sub : List Char) : List Char → Option Nat
  | [] => if sub.isEmpty then some 0 else none
  | c :: rest =>
      if listStartsWith (c :: rest) sub then some 0
      else (goIndex sub rest).map (· + 1)

/-- Go strings.Trim(s, one space): remove leading and trailing space
characters. -/
def trimSpaces (l : List Char) : List Char :=
  ((l.dropWhile fun c => c == ' ').reverse.dropWhile fun c => c == ' ').reverse

/-- The token-extraction logic of the JwtToken middleware: locate the
literal Bearer anywhere in the header value (the source repeats the
identical search when the first one fails, which cannot change the
result and is modelled as one search); when found, keep everything after
it and trim surrounding spaces; when absent, use the whole header value
verbatim. -/
def extractToken (header : List Char) : List Char :=
  match goIndex bearerChars header with
  | some i => trimSpaces (header.drop (i + 6))
  | none => header

/-- The JwtToken middleware (middlewares package): read the
Authorization header; an empty value passes the request through
untouched; otherwise extract the token, validate it, short-circuit with
a 401 carrying the error text on failure, and on success store the
claim in the request context and continue.  The validate parameter
stands for jwtAuthentication.ConvertTokenUserClaim applied to the
compact-serialized token string, which the middleware treats as an
opaque function. -/
def JwtToken
    (validate : List Char → Except security.AuthError security.UserClaim)
    (ctx : Option security.UserClaim) (header : List Char) : MwStep :=
  if header.length = 0 then MwStep.pass ctx
  else
    match validate (extractToken header) with
    | Except.error e => MwStep.reject 401 e.message
    | Except.ok c => MwStep.pass (SetUserClaim ctx c)

/-- The CheckAuth middleware: reject with 401 unless a claim is present
in the request context. -/
def CheckAuth (ctx : Option security.UserClaim) : MwStep :=
  match GetUserClaim ctx with
  | Except.error _ => MwStep.reject 401 "Please provide valid credentials"
  | Except.ok _ => MwStep.pass ctx

/-- Outcome of a request through the middleware chain of a guarded
route: a 401 response, or the handler running with the final request
context. -/
inductive Outcome where
  | rejected (status : Nat) (msg : String)
  | handled (ctx : Option security.UserClaim)
deriving DecidableEq, Repr

/-- A guarded route: the request enters with an empty context, passes
the JwtToken middleware first, then CheckAuth, then reaches the
handler. -/
def guardedRoute
    (validate : List Char → Except security.AuthError security.UserClaim)
    (header : List Char) : Outcome :=
  match JwtToken validate none header with
  | MwStep.reject s msg => Outcome.rejected s msg
  | MwStep.pass ctx =>
      match CheckAuth ctx with
      | MwStep.reject s msg => Outcome.rejected s msg
      | MwStep.pass ctx2 => Outcome.handled ctx2

end middlewares

end BetterAdmin
namespace BetterAdmin

namespace middlewares

theorem trimSpaces_cons_space (t : List Char) (h : trimSpaces t = t) :
    trimSpaces (' ' :: t) = t := by
  unfold trimSpaces at h ⊢
  simpa using h

theorem goIndex_bearer_zero (t : List Char) :
    goIndex bearerChars (bearerChars ++ ' ' :: t) = some 0 := by
  simp [goIndex, bearerChars, listStartsWith]

theorem extractToken_bearer (t : List Char) (h : trimSpaces t = t) :
    extractToken (bearerChars ++ ' ' :: t) = t := by
  unfold extractToken
  rw [goIndex_bearer_zero]
  show trimSpaces (List.drop 6 (bearerChars ++ ' ' :: t)) = t
  have hd : List.drop 6 (bearerChars ++ ' ' :: t) = ' ' :: t := by
    simp [bearerChars]
  rw [hd]
  exact trimSpaces_cons_space t h

theorem extractToken_no_bearer (h : List Char)
    (hnb : goIndex bearerChars h = none) : extractToken h = h := by
  unfold extractToken
  rw [hnb]

/-- A fixed sample validator, recognising the token string tok with a
fixed claim; used to instantiate the middleware theorems on closed
inputs. -/
def sampleValidate : List Char → Except security.AuthError security.UserClaim :=
  fun s =>
    if s = ['t', 'o', 'k'] then Except.ok ⟨7, [], []⟩
    else Except.error security.AuthError.invalidAccessToken

end middlewares

end BetterAdmin
namespace BetterAdmin

open security middlewares

/-- C1 counterexample: the round-trip law fails as stated.  The claim
with id 2 to the 53 plus 1 (a legal uint) encodes and decodes to the
claim with id 2 to the 53: the generic map decode passes the id through
a float64, which cannot represent the original value. -/
theorem c1_roundtrip_counterexample :
    NewUserClaim (UserClaim.ConvertMap ⟨9007199254740993, [], []⟩) =
      Except.ok ⟨9007199254740992, [], []⟩ ∧
    (⟨9007199254740993, [], []⟩ : UserClaim) ≠ ⟨9007199254740992, [], []⟩ :=
  ⟨by decide, by decide⟩

/-- C1, amended: for every claim with positive id up to 2 to the 53 (the
float64-exact range) and arbitrary role and permission lists, encoding
with ConvertMap and decoding with NewUserClaim yields the original claim
in all three fields. -/
theorem c1_roundtrip_amended (c : UserClaim) (hpos : 0 < c.id)
    (hle : c.id ≤ 2 ^ 53) : NewUserClaim c.ConvertMap = Except.ok c :=
  decode_roundtrip c (lt_of_le_of_lt hle (by norm_num)) (floatRound_of_le _ hle)

/-- C1 witness: the amended round-trip law at a concrete claim. -/
theorem c1_roundtrip_amended_witness :
    NewUserClaim (UserClaim.ConvertMap ⟨42, ["admin"], ["read", "write"]⟩) =
      Except.ok ⟨42, ["admin"], ["read", "write"]⟩ :=
  c1_roundtrip_amended ⟨42, ["admin"], ["read", "write"]⟩ (by decide) (by decide)

/-- C2 counterexample: at verification time exactly t0 plus 15 minutes
the access token still validates successfully, where the claim requires
failure with Expired for every now at or past t0 plus 15 minutes: the
library treats now equal to exp as unexpired. -/
theorem c2_expiry_counterexample :
    ConvertTokenUserClaim "secret" 900
        ((GenerateJwtToken "secret" 0 ⟨1, [], []⟩).accessToken) =
      Except.ok ⟨1, [], []⟩ ∧
    (Except.ok (⟨1, [], []⟩ : UserClaim) : Except AuthError UserClaim) ≠
      Except.error AuthError.accessTokenExpired :=
  ⟨by decide, by decide⟩

/-- C2, amended: an access token issued at t0 for a claim that
round-trips through the codec validates successfully for every now at or
before t0 plus 15 minutes (the boundary is inclusive), and fails with
AccessTokenExpired (not InvalidAccessToken) for every now strictly past
t0 plus 15 minutes; t0 is a realistic clock (nonnegative, with t0 plus
900 inside the float64-exact range). -/
theorem c2_expiry_amended (secret : String) (c : UserClaim) (t0 now : Int)
    (hrt : NewUserClaim c.ConvertMap = Except.ok c)
    (h0 : 0 ≤ t0) (h1 : t0 + 900 ≤ 2 ^ 53) :
    (now ≤ t0 + 900 →
      ConvertTokenUserClaim secret now (GenerateJwtToken secret t0 c).accessToken =
        Except.ok c) ∧
    (t0 + 900 < now →
      ConvertTokenUserClaim secret now (GenerateJwtToken secret t0 c).accessToken =
        Except.error AuthError.accessTokenExpired) := by
  constructor <;> intro hn <;>
    rw [generated_access_behavior secret c t0 now hrt h0 h1]
  · rw [if_pos hn]
  · rw [if_neg (by omega)]

/-- C2 witness: the amended expiry boundary at concrete times 900 and
901 for a token issued at time 0. -/
theorem c2_expiry_amended_witness :
    ConvertTokenUserClaim "s" 900 ((GenerateJwtToken "s" 0 ⟨1, [], []⟩).accessToken) =
      Except.ok ⟨1, [], []⟩ ∧
    ConvertTokenUserClaim "s" 901 ((GenerateJwtToken "s" 0 ⟨1, [], []⟩).accessToken) =
      Except.error AuthError.accessTokenExpired :=
  ⟨(c2_expiry_amended "s" ⟨1, [], []⟩ 0 900 (by decide) (by decide) (by decide)).1
      (by decide),
   (c2_expiry_amended "s" ⟨1, [], []⟩ 0 901 (by decide) (by decide) (by decide)).2
      (by decide)⟩

/-- C3 counterexample: a token whose signature does not verify against
the process secret and whose expiry has elapsed is reported as
AccessTokenExpired, not InvalidToken: claims validation and signature
verification accumulate into one error and the expired bit is checked
first, so the signature failure does not take precedence. -/
theorem c3_order_counterexample :
    ConvertTokenUserClaim "s" 1000
        (Jwt.token "HS256" [("exp", JsonValue.num 1)] (Sig.forged 0)) =
      Except.error AuthError.accessTokenExpired ∧
    (Except.error AuthError.accessTokenExpired : Except AuthError UserClaim) ≠
      Except.error AuthError.invalidAccessToken :=
  ⟨by decide, by decide⟩

/-- C3, amended: the checks are not sequential; claims validity and
signature verification are evaluated together and their failures
accumulate, with the expiry and not-before failures taking precedence in
the reported error.  A token with an unverifiable signature yields
InvalidAccessToken exactly when its expiry and not-before checks pass;
when the token is also expired the result is AccessTokenExpired
instead. -/
theorem c3_order_amended (secret : String) (now : Int) (alg : String)
    (m : Payload) (sig : Sig) (hreg : registeredAlgs.contains alg = true)
    (hsig : sigVerify alg m secret sig = false) :
    (VerifyExpiresAt m now = true → VerifyNotBefore m now = true →
      ConvertTokenUserClaim secret now (Jwt.token alg m sig) =
        Except.error AuthError.invalidAccessToken) ∧
    (VerifyExpiresAt m now = false →
      ConvertTokenUserClaim secret now (Jwt.token alg m sig) =
        Except.error AuthError.accessTokenExpired) := by
  constructor
  · intro hE hN
    rw [convertToken_cases secret now alg m sig hreg, hsig, hE, hN]
    simp
  · intro hE
    rw [convertToken_cases secret now alg m sig hreg, hsig, hE]
    simp

/-- C3 witness: the amended precedence at concrete tokens, one
unexpired with a bad signature (InvalidAccessToken) and one expired with
a bad signature (AccessTokenExpired). -/
theorem c3_order_amended_witness :
    ConvertTokenUserClaim "s" 0 (Jwt.token "HS256" [] (Sig.forged 0)) =
      Except.error AuthError.invalidAccessToken ∧
    ConvertTokenUserClaim "s" 1000
        (Jwt.token "HS256" [("exp", JsonValue.num 5)] (Sig.forged 1)) =
      Except.error AuthError.accessTokenExpired :=
  ⟨(c3_order_amended "s" 0 "HS256" [] (Sig.forged 0) (by decide) (by decide)).1
      (by decide) (by decide),
   (c3_order_amended "s" 1000 "HS256" [("exp", JsonValue.num 5)] (Sig.forged 1)
      (by decide) (by decide)).2 (by decide)⟩

/-- C4: a structurally valid token whose declared alg is anything other
than HMAC-SHA256, with claims that pass as well formed and unexpired,
is rejected with InvalidAccessToken: an unregistered alg stops parsing,
a registered non-HMAC alg cannot verify against the byte-slice secret,
and even a correctly HMAC-signed HS384 or HS512 token is rejected by the
explicit header check. -/
theorem c4_algorithm_pinning (secret : String) (now : Int) (alg : String)
    (m : Payload) (sig : Sig) (halg : alg ≠ "HS256")
    (hE : VerifyExpiresAt m now = true) (hI : VerifyIssuedAt m now = true)
    (hN : VerifyNotBefore m now = true) :
    ConvertTokenUserClaim secret now (Jwt.token alg m sig) =
      Except.error AuthError.invalidAccessToken := by
  by_cases hreg : registeredAlgs.contains alg = true
  · rw [convertToken_cases secret now alg m sig hreg, hE, hI, hN]
    cases hs : sigVerify alg m secret sig
    · simp
    · simp [halg]
  · exact convert_unregistered secret now alg m sig (by simpa using hreg)

/-- C4 witness: concrete rejections of an unsigned none token, a
correctly HMAC-SHA384-signed token, and an unregistered alg. -/
theorem c4_algorithm_pinning_witness :
    ConvertTokenUserClaim "s" 0 (Jwt.token "none" [] (Sig.forged 0)) =
      Except.error AuthError.invalidAccessToken ∧
    ConvertTokenUserClaim "s" 0 (Jwt.token "HS384" [] (Sig.hmac "HS384" [] "s")) =
      Except.error AuthError.invalidAccessToken ∧
    ConvertTokenUserClaim "s" 0 (Jwt.token "XYZ" [] (Sig.forged 0)) =
      Except.error AuthError.invalidAccessToken :=
  ⟨c4_algorithm_pinning "s" 0 "none" [] (Sig.forged 0) (by decide) (by decide)
      (by decide) (by decide),
   c4_algorithm_pinning "s" 0 "HS384" [] (Sig.hmac "HS384" [] "s") (by decide)
      (by decide) (by decide) (by decide),
   c4_algorithm_pinning "s" 0 "XYZ" [] (Sig.forged 0) (by decide) (by decide)
      (by decide) (by decide)⟩

/-- C5 counterexample: decoding a payload map with no id entry does not
fail; it succeeds with the zero id, so the required-field half of the
claim is false (the unknown-field half survives in the amended form). -/
theorem c5_decoding_counterexample :
    NewUserClaim [("roles", JsonValue.arr [JsonAtom.str "admin"])] =
      Except.ok ⟨0, ["admin"], []⟩ := by decide

/-- C5, amended: decoding ignores every appended field whose name does
not match id, roles or permissions case-insensitively; an id of the
wrong shape (a string, or a number outside the uint range) fails with
the unmarshal codec error; but a missing id does not fail, yielding a
claim with id zero. -/
theorem c5_decoding_amended :
    (∀ (m : Payload) (k : String) (v : JsonValue),
      lowerKey k ≠ "id" → lowerKey k ≠ "roles" → lowerKey k ≠ "permissions" →
      NewUserClaim (m ++ [(k, v)]) = NewUserClaim m) ∧
    (∀ s : String,
      NewUserClaim [("id", JsonValue.str s)] = Except.error "JSON Unmarshal error") ∧
    (∀ x : Int, x < 0 ∨ 2 ^ 64 ≤ x →
      NewUserClaim [("id", JsonValue.num x)] = Except.error "JSON Unmarshal error") ∧
    NewUserClaim ([] : Payload) = Except.ok ⟨0, [], []⟩ := by
  refine ⟨fun m k v h1 h2 h3 => newUserClaim_append_skip m k v h1 h2 h3, ?_, ?_, rfl⟩
  · intro s
    rfl
  · intro x hx
    unfold NewUserClaim
    simp only [List.foldl_cons, List.foldl_nil]
    have happ : applyEntry ⟨⟨0, [], []⟩, false⟩ ("id", JsonValue.num x) =
        ⟨⟨0, [], []⟩, true⟩ := by
      unfold applyEntry
      simp only [lowerKey_id, if_true]
      exact if_neg (by omega)
    rw [happ]
    rfl

/-- C5 witness: the amended decode behaviour at concrete inputs: an exp
entry is ignored, a string id and a negative id fail, at concrete
maps. -/
theorem c5_decoding_amended_witness :
    NewUserClaim ([("exp", JsonValue.num 900)] : Payload) = NewUserClaim ([] : Payload) ∧
    NewUserClaim [("id", JsonValue.str "x")] = Except.error "JSON Unmarshal error" ∧
    NewUserClaim [("id", JsonValue.num (-1))] = Except.error "JSON Unmarshal error" :=
  ⟨c5_decoding_amended.1 [] "exp" (JsonValue.num 900) (by decide) (by decide) (by decide),
   c5_decoding_amended.2.1 "x",
   c5_decoding_amended.2.2.1 (-1) (Or.inl (by decide))⟩

/-- C6: for every real (float64-representable) refresh token that
validates at time now to a claim C, RefreshAccessToken returns only the
access token of a freshly generated pair; that new access token
validates back to exactly C throughout its own 15-minute window; the
call is repeatable (a second refresh while the token is valid succeeds
the same way); and the original refresh token's validity is untouched
(validation is pure, no state is consumed). -/
theorem c6_refresh_non_rotation (secret : String) (rt : Jwt) (C : UserClaim)
    (now : Int) (hfl : rt.floaty = true)
    (hval : ConvertTokenUserClaim secret now rt = Except.ok C)
    (h0 : 0 ≤ now) (h1 : now + 900 ≤ 2 ^ 53) :
    RefreshAccessToken secret now rt =
      Except.ok (GenerateJwtToken secret now C).accessToken ∧
    (∀ now2 : Int, now2 ≤ now + 900 →
      ConvertTokenUserClaim secret now2 (GenerateJwtToken secret now C).accessToken =
        Except.ok C) ∧
    (∀ now3 : Int, ConvertTokenUserClaim secret now3 rt = Except.ok C →
      RefreshAccessToken secret now3 rt =
        Except.ok (GenerateJwtToken secret now3 C).accessToken) ∧
    ConvertTokenUserClaim secret now rt = Except.ok C := by
  have hrt : NewUserClaim C.ConvertMap = Except.ok C :=
    validated_roundtrips secret now rt C hfl hval
  refine ⟨?_, ?_, ?_, hval⟩
  · unfold RefreshAccessToken
    rw [hval]
  · intro now2 hn2
    rw [generated_access_behavior secret C now now2 hrt h0 h1, if_pos hn2]
  · intro now3 hval3
    unfold RefreshAccessToken
    rw [hval3]

/-- C6 witness: refresh of a concrete valid refresh token. -/
theorem c6_refresh_non_rotation_witness :
    RefreshAccessToken "s" 0
        (Jwt.token "HS256"
          [("id", JsonValue.num 1), ("roles", JsonValue.arr []),
           ("permissions", JsonValue.arr []), ("exp", JsonValue.num 604800)]
          (Sig.hmac "HS256"
            [("id", JsonValue.num 1), ("roles", JsonValue.arr []),
             ("permissions", JsonValue.arr []), ("exp", JsonValue.num 604800)] "s")) =
      Except.ok (GenerateJwtToken "s" 0 ⟨1, [], []⟩).accessToken :=
  (c6_refresh_non_rotation "s"
    (Jwt.token "HS256"
      [("id", JsonValue.num 1), ("roles", JsonValue.arr []),
       ("permissions", JsonValue.arr []), ("exp", JsonValue.num 604800)]
      (Sig.hmac "HS256"
        [("id", JsonValue.num 1), ("roles", JsonValue.arr []),
         ("permissions", JsonValue.arr []), ("exp", JsonValue.num 604800)] "s"))
    ⟨1, [], []⟩ 0 (by decide) (by decide) (by decide) (by decide)).1

/-- C7 counterexample: the never-expiring token for the claim with id
2 to the 53 plus 1 validates successfully at time 0 but returns a claim
with the rounded id, not the original claim. -/
theorem c7_never_expired_counterexample :
    ConvertTokenUserClaim "s" 0
        (GenerateJwtAccessTokenNeverExpired "s" ⟨9007199254740993, [], []⟩) =
      Except.ok ⟨9007199254740992, [], []⟩ ∧
    (Except.ok (⟨9007199254740992, [], []⟩ : UserClaim) : Except AuthError UserClaim) ≠
      Except.ok ⟨9007199254740993, [], []⟩ :=
  ⟨by decide, by decide⟩

/-- C7, amended: the never-expiring token carries no exp entry and at
every verification time validation reaches the claim decode and returns
its result; this equals the original claim exactly when the claim
round-trips through the codec (in particular whenever its id is at most
2 to the 53). -/
theorem c7_never_expired_amended (secret : String) (c : UserClaim) (now : Int) :
    (GenerateJwtAccessTokenNeverExpired secret c =
      Jwt.token "HS256" c.ConvertMap (Sig.hmac "HS256" c.ConvertMap secret) ∧
      List.lookup "exp" c.ConvertMap = none) ∧
    ConvertTokenUserClaim secret now (GenerateJwtAccessTokenNeverExpired secret c) =
      wrapNew (NewUserClaim c.ConvertMap) ∧
    (NewUserClaim c.ConvertMap = Except.ok c →
      ConvertTokenUserClaim secret now (GenerateJwtAccessTokenNeverExpired secret c) =
        Except.ok c) := by
  refine ⟨⟨rfl, lookup_exp_convertMap c⟩, convert_never_expired secret now c, ?_⟩
  intro hrt
  rw [convert_never_expired secret now c, hrt]
  rfl

/-- C7 witness: a concrete never-expiring token validating at a late
clock to its original claim. -/
theorem c7_never_expired_amended_witness :
    ConvertTokenUserClaim "s" 99999999999
        (GenerateJwtAccessTokenNeverExpired "s" ⟨1, ["admin"], []⟩) =
      Except.ok ⟨1, ["admin"], []⟩ :=
  (c7_never_expired_amended "s" ⟨1, ["admin"], []⟩ 99999999999).2.2 (by decide)

/-- C10 counterexample: a correctly signed token whose issued-at time
lies in the future is reported with InvalidAccessToken, not with the
Expired error the claim asserts: the issued-at validation bit is not in
the mask ConvertTokenUserClaim checks. -/
theorem c10_premature_counterexample :
    ConvertTokenUserClaim "s" 0
        (Jwt.token "HS256" [("iat", JsonValue.num 100)]
          (Sig.hmac "HS256" [("iat", JsonValue.num 100)] "s")) =
      Except.error AuthError.invalidAccessToken ∧
    (Except.error AuthError.invalidAccessToken : Except AuthError UserClaim) ≠
      Except.error AuthError.accessTokenExpired :=
  ⟨by decide, by decide⟩

/-- C10, amended: for a correctly signed HS256 token with unexpired
claims, a failing not-before check is reported as AccessTokenExpired
(indistinguishable from an elapsed token), but a failing issued-at check
is reported as InvalidAccessToken. -/
theorem c10_premature_amended (secret : String) (m : Payload) (now : Int) :
    (VerifyExpiresAt m now = true → VerifyIssuedAt m now = true →
      VerifyNotBefore m now = false →
      ConvertTokenUserClaim secret now (Jwt.token "HS256" m (Sig.hmac "HS256" m secret)) =
        Except.error AuthError.accessTokenExpired) ∧
    (VerifyExpiresAt m now = true → VerifyNotBefore m now = true →
      VerifyIssuedAt m now = false →
      ConvertTokenUserClaim secret now (Jwt.token "HS256" m (Sig.hmac "HS256" m secret)) =
        Except.error AuthError.invalidAccessToken) := by
  constructor
  · intro hE hI hN
    rw [convertToken_cases _ _ _ _ _ contains_hs256, hE, hI, hN, sigVerify_self]
    simp
  · intro hE hN hI
    rw [convertToken_cases _ _ _ _ _ contains_hs256, hE, hI, hN, sigVerify_self]
    simp

/-- C10 witness: a future not-before reported as expired and a future
issued-at reported as invalid, at concrete tokens. -/
theorem c10_premature_amended_witness :
    ConvertTokenUserClaim "s" 0
        (Jwt.token "HS256" [("nbf", JsonValue.num 100)]
          (Sig.hmac "HS256" [("nbf", JsonValue.num 100)] "s")) =
      Except.error AuthError.accessTokenExpired ∧
    ConvertTokenUserClaim "s" 0
        (Jwt.token "HS256" [("iat", JsonValue.num 200)]
          (Sig.hmac "HS256" [("iat", JsonValue.num 200)] "s")) =
      Except.error AuthError.invalidAccessToken :=
  ⟨(c10_premature_amended "s" [("nbf", JsonValue.num 100)] 0).1
      (by decide) (by decide) (by decide),
   (c10_premature_amended "s" [("iat", JsonValue.num 200)] 0).2
      (by decide) (by decide) (by decide)⟩

end BetterAdmin
namespace BetterAdmin

open security middlewares

/-- C8: a request with no Authorization header passes through the
JwtToken middleware unchanged (the claim slot stays empty and nothing is
rejected) and is then rejected with 401 by CheckAuth on a guarded route;
the same request with a valid Bearer credential passes both middlewares
and reaches the handler with the decoded claim in the context; and a
request whose presented credential fails validation is short-circuited
by the JwtToken middleware itself with a 401 carrying the error text. -/
theorem c8_guard_scenario
    (validate : List Char → Except security.AuthError security.UserClaim) :
    guardedRoute validate [] = Outcome.rejected 401 "Please provide valid credentials" ∧
    middlewares.JwtToken validate none [] = MwStep.pass none ∧
    (∀ (t : List Char) (c : security.UserClaim), trimSpaces t = t →
      validate t = Except.ok c →
      guardedRoute validate (bearerChars ++ ' ' :: t) = Outcome.handled (some c)) ∧
    (∀ (h : List Char) (e : security.AuthError), h ≠ [] →
      validate (extractToken h) = Except.error e →
      guardedRoute validate h = Outcome.rejected 401 e.message) := by
  refine ⟨rfl, rfl, ?_, ?_⟩
  · intro t c ht hv
    unfold guardedRoute middlewares.JwtToken
    rw [if_neg (by simp [bearerChars]), extractToken_bearer t ht, hv]
    rfl
  · intro h e hne hv
    unfold guardedRoute middlewares.JwtToken
    rw [if_neg (fun hz => hne (List.length_eq_zero.mp hz)), hv]

/-- C8 witness: the three middleware outcomes at concrete requests with
the sample validator: a valid Bearer credential reaches the handler
with its claim, and an invalid credential is rejected with the
validation error text. -/
theorem c8_guard_scenario_witness :
    guardedRoute sampleValidate (bearerChars ++ ' ' :: ['t', 'o', 'k']) =
      Outcome.handled (some ⟨7, [], []⟩) ∧
    guardedRoute sampleValidate ['x'] = Outcome.rejected 401 "invalid access token" :=
  ⟨(c8_guard_scenario sampleValidate).2.2.1 ['t', 'o', 'k'] ⟨7, [], []⟩
      (by decide) (by decide),
   (c8_guard_scenario sampleValidate).2.2.2 ['x']
      security.AuthError.invalidAccessToken (by decide) (by decide)⟩

/-- C9: when the Authorization header is non-empty and contains no
Bearer substring, the JwtToken middleware passes the entire raw header
value verbatim to the validator; in particular a bare valid token
carried without any Bearer prefix is accepted and its claim is stored in
the context. -/
theorem c9_raw_header
    (validate : List Char → Except security.AuthError security.UserClaim)
    (ctx : Option security.UserClaim) (h : List Char)
    (hne : h ≠ []) (hnb : goIndex bearerChars h = none) :
    middlewares.JwtToken validate ctx h =
      (match validate h with
       | Except.ok c => MwStep.pass (some c)
       | Except.error e => MwStep.reject 401 e.message) ∧
    (∀ c, validate h = Except.ok c → middlewares.JwtToken validate ctx h = MwStep.pass (some c)) := by
  have hext : extractToken h = h := extractToken_no_bearer h hnb
  constructor
  · unfold middlewares.JwtToken
    rw [if_neg (fun hz => hne (List.length_eq_zero.mp hz)), hext]
    cases validate h <;> rfl
  · intro c hv
    unfold middlewares.JwtToken
    rw [if_neg (fun hz => hne (List.length_eq_zero.mp hz)), hext, hv]
    rfl


/-- C9 witness: the sample validator accepts a bare token presented with
no Bearer prefix. -/
theorem c9_raw_header_witness :
    middlewares.JwtToken sampleValidate none ['t', 'o', 'k'] = MwStep.pass (some ⟨7, [], []⟩) :=
  (c9_raw_header sampleValidate none ['t', 'o', 'k'] (by decide) (by decide)).2
    ⟨7, [], []⟩ (by decide)

end BetterAdmin
